import Mathlib

/-!
Verification of `chromium/scripts/generate_gyp.py`.

The development shallowly embeds the script's data model and algorithms:

* `SourceSet` with its `Intersect`, `Difference` and `IsEmpty` methods
  (lines 305-363 of the source);
* the fixed-point refinement loop `CreatePairwiseDisjointSets`
  (lines 524-562), modelled with an explicit first-positive-pair scan
  (`findPair`, matching `itertools.combinations` order) and a single
  refinement step (`splitStep`, matching the append / index / delete-or-assign
  body of the `while` loop);
* the gyp and gn condition renderers (lines 365-521);
* the license gate (lines 730-774 and the `main` gate at lines 818-835),
  with the external license classifier abstracted as a function parameter.

Python `set` objects become `Finset String`; Python `list.index` uses
structural equality, embedded via `List.findIdx` on propositional equality.
-/

structure SourceSet where
  sources : Finset String
  architectures : Finset String
  targets : Finset String
  platforms : Finset String
deriving DecidableEq

/-- Line 334: files are intersected, every axis set is unioned. -/
def SourceSet.Intersect (self other : SourceSet) : SourceSet :=
  ⟨self.sources ∩ other.sources,
   self.architectures ∪ other.architectures,
   self.targets ∪ other.targets,
   self.platforms ∪ other.platforms⟩

/-- Line 346: files are subtracted, every axis set is intersected. -/
def SourceSet.Difference (self other : SourceSet) : SourceSet :=
  ⟨self.sources \ other.sources,
   self.architectures ∩ other.architectures,
   self.targets ∩ other.targets,
   self.platforms ∩ other.platforms⟩

/-- Line 358: a set is empty when its file set or any axis set is empty. -/
def SourceSet.IsEmpty (self : SourceSet) : Bool :=
  self.sources.card == 0 || self.architectures.card == 0 ||
  self.targets.card == 0 || self.platforms.card == 0

theorem SourceSet.IsEmpty_eq_false (s : SourceSet) :
    s.IsEmpty = false ↔
      s.sources ≠ ∅ ∧ s.architectures ≠ ∅ ∧ s.targets ≠ ∅ ∧ s.platforms ≠ ∅ := by
  simp [SourceSet.IsEmpty, Finset.card_eq_zero]
  tauto

theorem SourceSet.IsEmpty_eq_true (s : SourceSet) :
    s.IsEmpty = true ↔
      s.sources = ∅ ∨ s.architectures = ∅ ∨ s.targets = ∅ ∨ s.platforms = ∅ := by
  simp [SourceSet.IsEmpty, Finset.card_eq_zero]
  tauto

/-- Scan for the first pair (in `itertools.combinations(l, 2)` order, line
536) whose intersection is not empty (line 540). -/
def findPair : List SourceSet → Option (SourceSet × SourceSet)
  | [] => none
  | x :: xs =>
    match xs.find? (fun y => !(x.Intersect y).IsEmpty) with
    | some y => some (x, y)
    | none => findPair xs

/-- Lines 551-557: look up the first element structurally equal to `p`
(Python `list.index`), and either delete it or overwrite it with
`p.Difference inter` depending on emptiness of the difference. -/
def updateOne (l : List SourceSet) (p inter : SourceSet) : List SourceSet :=
  let i := l.findIdx (fun x => decide (x = p))
  let difference := p.Difference inter
  if difference.IsEmpty then l.eraseIdx i else l.set i difference

/-- Lines 543-557: append the intersection, then update each member of the
pair in order. -/
def splitStep (l : List SourceSet) (A B : SourceSet) : List SourceSet :=
  let inter := A.Intersect B
  updateOne (updateOne (l ++ [inter]) A inter) B inter

/-- Termination measure: the sum of squared file-set sizes. -/
def sqCard (s : SourceSet) : ℕ := s.sources.card * s.sources.card

def muM (m : Multiset SourceSet) : ℕ := (m.map sqCard).sum

def mu (l : List SourceSet) : ℕ := muM (l : Multiset SourceSet)

theorem add_singleton_eq (s : Multiset SourceSet) (a : SourceSet) :
    s + {a} = a ::ₘ s := by
  rw [add_comm]; simp

theorem updateOne_cons (x : SourceSet) (xs : List SourceSet) (p inter : SourceSet) :
    updateOne (x :: xs) p inter =
      if x = p then
        (if (p.Difference inter).IsEmpty then xs else (p.Difference inter) :: xs)
      else x :: updateOne xs p inter := by
  by_cases hx : x = p <;>
    by_cases hd : (p.Difference inter).IsEmpty <;>
      simp [updateOne, List.findIdx_cons, hx, hd]

theorem updateOne_coe (l : List SourceSet) (p inter : SourceSet) (hp : p ∈ l) :
    ((updateOne l p inter : List SourceSet) : Multiset SourceSet) + {p}
      = (l : Multiset SourceSet) +
        (if (p.Difference inter).IsEmpty then 0 else {p.Difference inter}) := by
  induction l with
  | nil => cases hp
  | cons x xs ih =>
    rw [updateOne_cons]
    by_cases hx : x = p
    · subst hx
      by_cases hd : (x.Difference inter).IsEmpty
      · rw [if_pos rfl, if_pos hd, if_pos hd, add_zero, ← Multiset.cons_coe,
          add_singleton_eq]
      · rw [if_pos rfl, if_neg hd, if_neg hd, ← Multiset.cons_coe,
          ← Multiset.cons_coe, add_singleton_eq, add_singleton_eq,
          Multiset.cons_swap]
    · have hp' : p ∈ xs := by
        rcases List.mem_cons.mp hp with h | h
        · exact absurd h.symm hx
        · exact h
      rw [if_neg hx, ← Multiset.cons_coe, ← Multiset.cons_coe,
        Multiset.cons_add, Multiset.cons_add, ih hp']

theorem updateOne_append_left (la lb : List SourceSet) (p inter : SourceSet)
    (hp : p ∈ la) :
    updateOne (la ++ lb) p inter = (updateOne la p inter) ++ lb := by
  induction la with
  | nil => cases hp
  | cons x xs ih =>
    rw [List.cons_append, updateOne_cons, updateOne_cons]
    by_cases hx : x = p
    · rw [if_pos hx, if_pos hx]
      by_cases hd : (p.Difference inter).IsEmpty
      · rw [if_pos hd, if_pos hd]
      · rw [if_neg hd, if_neg hd, List.cons_append]
    · have hp' : p ∈ xs := by
        rcases List.mem_cons.mp hp with h | h
        · exact absurd h.symm hx
        · exact h
      rw [if_neg hx, if_neg hx, List.cons_append, ih hp']

theorem findPair_spec {l : List SourceSet} {A B : SourceSet}
    (h : findPair l = some (A, B)) :
    (∃ l₁ l₂, l = l₁ ++ A :: l₂ ∧ B ∈ l₂) ∧ (A.Intersect B).IsEmpty = false := by
  induction l with
  | nil => simp [findPair] at h
  | cons x xs ih =>
    rw [findPair] at h
    cases hf : xs.find? (fun y => !(x.Intersect y).IsEmpty) with
    | some y =>
      rw [hf] at h
      obtain ⟨hA, hB⟩ := Prod.mk.injEq .. ▸ Option.some.injEq .. ▸ h
      subst hA; subst hB
      refine ⟨⟨[], xs, rfl, List.mem_of_find?_eq_some hf⟩, ?_⟩
      have := List.find?_some hf
      simpa using this
    | none =>
      rw [hf] at h
      obtain ⟨⟨l₁, l₂, heq, hB2⟩, hIE⟩ := ih h
      exact ⟨⟨x :: l₁, l₂, by rw [heq, List.cons_append], hB2⟩, hIE⟩

theorem findPair_mem {l : List SourceSet} {A B : SourceSet}
    (h : findPair l = some (A, B)) : A ∈ l ∧ B ∈ l := by
  obtain ⟨⟨l₁, l₂, rfl, hB2⟩, -⟩ := findPair_spec h
  exact ⟨by simp, by simp [hB2]⟩

theorem findPair_counts {l : List SourceSet} {A B : SourceSet}
    (h : findPair l = some (A, B)) :
    1 ≤ Multiset.count A (l : Multiset SourceSet) ∧
    1 ≤ Multiset.count B (l : Multiset SourceSet) ∧
    (A = B → 2 ≤ Multiset.count A (l : Multiset SourceSet)) := by
  obtain ⟨⟨l₁, l₂, rfl, hB2⟩, -⟩ := findPair_spec h
  have hBc : 0 < Multiset.count B (l₂ : Multiset SourceSet) :=
    Multiset.count_pos.mpr (by simpa using hB2)
  simp only [Multiset.coe_count] at hBc
  have hcoe : ((l₁ ++ A :: l₂ : List SourceSet) : Multiset SourceSet)
      = (l₁ : Multiset SourceSet) + (A ::ₘ (l₂ : Multiset SourceSet)) := by
    rw [← Multiset.coe_add, Multiset.cons_coe]
  refine ⟨?_, ?_, ?_⟩
  · rw [hcoe]; simp; omega
  · rw [hcoe]
    by_cases hBA : B = A <;> simp [Multiset.count_cons, hBA] <;> omega
  · intro hAB
    subst hAB
    rw [hcoe]
    simp [Multiset.count_cons]
    omega

theorem coe_append_singleton (l : List SourceSet) (x : SourceSet) :
    ((l ++ [x] : List SourceSet) : Multiset SourceSet)
      = (l : Multiset SourceSet) + {x} := by
  rw [← Multiset.coe_add]; rfl

theorem splitStep_coe {l : List SourceSet} {A B : SourceSet}
    (h : findPair l = some (A, B)) :
    ((splitStep l A B : List SourceSet) : Multiset SourceSet) + {A} + {B}
      = (l : Multiset SourceSet) + {A.Intersect B}
        + (if (A.Difference (A.Intersect B)).IsEmpty then 0
           else {A.Difference (A.Intersect B)})
        + (if (B.Difference (A.Intersect B)).IsEmpty then 0
           else {B.Difference (A.Intersect B)}) := by
  obtain ⟨hAl, hBl⟩ := findPair_mem h
  obtain ⟨⟨l₁, l₂, hdec, hB2⟩, -⟩ := findPair_spec h
  have hA' : A ∈ l ++ [A.Intersect B] := List.mem_append_left _ hAl
  have e1 := updateOne_coe (l ++ [A.Intersect B]) A (A.Intersect B) hA'
  have hBu : B ∈ updateOne (l ++ [A.Intersect B]) A (A.Intersect B) := by
    have hshape : l ++ [A.Intersect B] = (l₁ ++ [A]) ++ (l₂ ++ [A.Intersect B]) := by
      rw [hdec]; simp
    rw [hshape, updateOne_append_left (l₁ ++ [A]) _ A _ (by simp)]
    exact List.mem_append_right _ (List.mem_append_left _ hB2)
  have e2 := updateOne_coe _ B (A.Intersect B) hBu
  rw [coe_append_singleton] at e1
  calc ((splitStep l A B : List SourceSet) : Multiset SourceSet) + {A} + {B}
      = (((updateOne (updateOne (l ++ [A.Intersect B]) A (A.Intersect B)) B
            (A.Intersect B) : List SourceSet) : Multiset SourceSet) + {B}) + {A} := by
        rw [add_right_comm]; rfl
    _ = (((updateOne (l ++ [A.Intersect B]) A (A.Intersect B) : List SourceSet) :
          Multiset SourceSet) + {A})
        + (if (B.Difference (A.Intersect B)).IsEmpty then 0
           else {B.Difference (A.Intersect B)}) := by
        rw [e2, add_right_comm]
    _ = (l : Multiset SourceSet) + {A.Intersect B}
        + (if (A.Difference (A.Intersect B)).IsEmpty then 0
           else {A.Difference (A.Intersect B)})
        + (if (B.Difference (A.Intersect B)).IsEmpty then 0
           else {B.Difference (A.Intersect B)}) := by
        rw [e1, add_assoc, add_assoc]

theorem Intersect_sources (A B : SourceSet) :
    (A.Intersect B).sources = A.sources ∩ B.sources := rfl

theorem Difference_sources (A B : SourceSet) :
    (A.Difference B).sources = A.sources \ B.sources := rfl

theorem sdiff_inter_left_sources (s t : Finset String) : s \ (s ∩ t) = s \ t := by
  ext a; simp; try tauto

theorem sdiff_inter_right_sources (s t : Finset String) : t \ (s ∩ t) = t \ s := by
  ext a; simp; try tauto

theorem diffA_sources (A B : SourceSet) :
    (A.Difference (A.Intersect B)).sources = A.sources \ B.sources := by
  rw [Difference_sources, Intersect_sources, sdiff_inter_left_sources]

theorem diffB_sources (A B : SourceSet) :
    (B.Difference (A.Intersect B)).sources = B.sources \ A.sources := by
  rw [Difference_sources, Intersect_sources, sdiff_inter_right_sources]

theorem diffA_architectures (A B : SourceSet) :
    (A.Difference (A.Intersect B)).architectures = A.architectures := by
  show A.architectures ∩ (A.architectures ∪ B.architectures) = A.architectures
  ext a; simp; try tauto

theorem diffA_targets (A B : SourceSet) :
    (A.Difference (A.Intersect B)).targets = A.targets := by
  show A.targets ∩ (A.targets ∪ B.targets) = A.targets
  ext a; simp; try tauto

theorem diffA_platforms (A B : SourceSet) :
    (A.Difference (A.Intersect B)).platforms = A.platforms := by
  show A.platforms ∩ (A.platforms ∪ B.platforms) = A.platforms
  ext a; simp; try tauto

theorem diffB_architectures (A B : SourceSet) :
    (B.Difference (A.Intersect B)).architectures = B.architectures := by
  show B.architectures ∩ (A.architectures ∪ B.architectures) = B.architectures
  ext a; simp; try tauto

theorem diffB_targets (A B : SourceSet) :
    (B.Difference (A.Intersect B)).targets = B.targets := by
  show B.targets ∩ (A.targets ∪ B.targets) = B.targets
  ext a; simp; try tauto

theorem diffB_platforms (A B : SourceSet) :
    (B.Difference (A.Intersect B)).platforms = B.platforms := by
  show B.platforms ∩ (A.platforms ∪ B.platforms) = B.platforms
  ext a; simp; try tauto

theorem inter_sources_nonempty {A B : SourceSet}
    (hIE : (A.Intersect B).IsEmpty = false) : A.sources ∩ B.sources ≠ ∅ := by
  have := ((SourceSet.IsEmpty_eq_false _).mp hIE).1
  rwa [Intersect_sources] at this

theorem diffA_ne_A {A B : SourceSet} (hIE : (A.Intersect B).IsEmpty = false) :
    A.Difference (A.Intersect B) ≠ A := by
  intro heq
  have hs : A.sources \ (A.sources ∩ B.sources) = A.sources := by
    have := congrArg SourceSet.sources heq
    rwa [Difference_sources, Intersect_sources] at this
  have hdisj : Disjoint A.sources (A.sources ∩ B.sources) :=
    Finset.sdiff_eq_self_iff_disjoint.mp hs
  have : A.sources ∩ B.sources = ∅ := by
    have := hdisj.symm.eq_bot_of_le Finset.inter_subset_left
    simpa using this
  exact inter_sources_nonempty hIE this

theorem diffB_ne_B {A B : SourceSet} (hIE : (A.Intersect B).IsEmpty = false) :
    B.Difference (A.Intersect B) ≠ B := by
  intro heq
  have hs : B.sources \ (A.sources ∩ B.sources) = B.sources := by
    have := congrArg SourceSet.sources heq
    rwa [Difference_sources, Intersect_sources] at this
  have hdisj : Disjoint B.sources (A.sources ∩ B.sources) :=
    Finset.sdiff_eq_self_iff_disjoint.mp hs
  have : A.sources ∩ B.sources = ∅ := by
    have := hdisj.symm.eq_bot_of_le Finset.inter_subset_right
    simpa using this
  exact inter_sources_nonempty hIE this

theorem diffA_ne_B {A B : SourceSet} (hIE : (A.Intersect B).IsEmpty = false) :
    A.Difference (A.Intersect B) ≠ B := by
  intro heq
  have hs : A.sources \ B.sources = B.sources := by
    have := congrArg SourceSet.sources heq
    rwa [diffA_sources] at this
  have hdisj : Disjoint B.sources B.sources := by
    conv_lhs => rw [← hs]
    exact Finset.sdiff_disjoint
  have hBe : B.sources = ∅ := by simpa using disjoint_self.mp hdisj
  apply inter_sources_nonempty hIE
  rw [hBe, Finset.inter_empty]

theorem diffB_ne_A {A B : SourceSet} (hIE : (A.Intersect B).IsEmpty = false) :
    B.Difference (A.Intersect B) ≠ A := by
  intro heq
  have hs : B.sources \ A.sources = A.sources := by
    have := congrArg SourceSet.sources heq
    rwa [diffB_sources] at this
  have hdisj : Disjoint A.sources A.sources := by
    conv_lhs => rw [← hs]
    exact Finset.sdiff_disjoint
  have hAe : A.sources = ∅ := by simpa using disjoint_self.mp hdisj
  apply inter_sources_nonempty hIE
  rw [hAe, Finset.empty_inter]

theorem splitStep_count {l : List SourceSet} {A B : SourceSet}
    (h : findPair l = some (A, B)) (q : SourceSet) :
    Multiset.count q ((splitStep l A B : List SourceSet) : Multiset SourceSet)
        + (if q = A then 1 else 0) + (if q = B then 1 else 0)
      = Multiset.count q (l : Multiset SourceSet)
        + (if q = A.Intersect B then 1 else 0)
        + (if (A.Difference (A.Intersect B)).IsEmpty = false ∧
              q = A.Difference (A.Intersect B) then 1 else 0)
        + (if (B.Difference (A.Intersect B)).IsEmpty = false ∧
              q = B.Difference (A.Intersect B) then 1 else 0) := by
  have hc := congrArg (Multiset.count q) (splitStep_coe h)
  simp only [Multiset.count_add, Multiset.count_singleton] at hc
  by_cases e1 : (A.Difference (A.Intersect B)).IsEmpty <;>
    by_cases e2 : (B.Difference (A.Intersect B)).IsEmpty <;>
      simp only [e1, e2, if_true, if_false, Multiset.count_zero,
        Multiset.count_singleton] at hc <;>
      split_ifs at hc ⊢ <;> simp_all <;> omega

theorem mem_splitStep_cases {l : List SourceSet} {A B : SourceSet}
    (h : findPair l = some (A, B)) {q : SourceSet} (hq : q ∈ splitStep l A B) :
    q ∈ l ∨ q = A.Intersect B ∨
    ((A.Difference (A.Intersect B)).IsEmpty = false ∧
      q = A.Difference (A.Intersect B)) ∨
    ((B.Difference (A.Intersect B)).IsEmpty = false ∧
      q = B.Difference (A.Intersect B)) := by
  by_cases h1 : q ∈ l
  · exact Or.inl h1
  by_cases h2 : q = A.Intersect B
  · exact Or.inr (Or.inl h2)
  by_cases h3 : (A.Difference (A.Intersect B)).IsEmpty = false ∧
      q = A.Difference (A.Intersect B)
  · exact Or.inr (Or.inr (Or.inl h3))
  by_cases h4 : (B.Difference (A.Intersect B)).IsEmpty = false ∧
      q = B.Difference (A.Intersect B)
  · exact Or.inr (Or.inr (Or.inr h4))
  exfalso
  have hcnt := splitStep_count h q
  have hql : Multiset.count q (l : Multiset SourceSet) = 0 := by
    rw [Multiset.count_eq_zero]
    simpa using h1
  have hqs : 0 < Multiset.count q
      ((splitStep l A B : List SourceSet) : Multiset SourceSet) :=
    Multiset.count_pos.mpr (by simpa using hq)
  rw [hql, if_neg h2, if_neg h3, if_neg h4] at hcnt
  split_ifs at hcnt <;> omega

theorem inter_mem_splitStep {l : List SourceSet} {A B : SourceSet}
    (h : findPair l = some (A, B)) : A.Intersect B ∈ splitStep l A B := by
  obtain ⟨cA, cB, cAB⟩ := findPair_counts h
  have hcnt := splitStep_count h (A.Intersect B)
  rw [if_pos rfl] at hcnt
  have hpos : 0 < Multiset.count (A.Intersect B)
      ((splitStep l A B : List SourceSet) : Multiset SourceSet) := by
    by_cases hiA : A.Intersect B = A <;> by_cases hiB : A.Intersect B = B
    · have hAB : A = B := by rw [← hiA, hiB]
      have h2 := cAB hAB
      rw [if_pos hiA, if_pos hiB] at hcnt
      rw [hiA] at hcnt ⊢
      split_ifs at hcnt <;> omega
    · rw [if_pos hiA, if_neg hiB] at hcnt
      rw [hiA] at hcnt ⊢
      split_ifs at hcnt <;> omega
    · rw [if_neg hiA, if_pos hiB] at hcnt
      rw [hiB] at hcnt ⊢
      split_ifs at hcnt <;> omega
    · rw [if_neg hiA, if_neg hiB] at hcnt
      split_ifs at hcnt <;> omega
  exact Multiset.mem_coe.mp (Multiset.count_pos.mp hpos)

theorem diffA_mem_splitStep {l : List SourceSet} {A B : SourceSet}
    (h : findPair l = some (A, B))
    (hne : (A.Difference (A.Intersect B)).IsEmpty = false) :
    A.Difference (A.Intersect B) ∈ splitStep l A B := by
  have hIE := (findPair_spec h).2
  have hcnt := splitStep_count h (A.Difference (A.Intersect B))
  have hcond : (A.Difference (A.Intersect B)).IsEmpty = false ∧
      A.Difference (A.Intersect B) = A.Difference (A.Intersect B) := ⟨hne, rfl⟩
  rw [if_neg (diffA_ne_A hIE), if_neg (diffA_ne_B hIE),
    if_pos hcond] at hcnt
  have hpos : 0 < Multiset.count (A.Difference (A.Intersect B))
      ((splitStep l A B : List SourceSet) : Multiset SourceSet) := by
    split_ifs at hcnt <;> omega
  exact Multiset.mem_coe.mp (Multiset.count_pos.mp hpos)

theorem diffB_mem_splitStep {l : List SourceSet} {A B : SourceSet}
    (h : findPair l = some (A, B))
    (hne : (B.Difference (A.Intersect B)).IsEmpty = false) :
    B.Difference (A.Intersect B) ∈ splitStep l A B := by
  have hIE := (findPair_spec h).2
  have hcnt := splitStep_count h (B.Difference (A.Intersect B))
  have hcond : (B.Difference (A.Intersect B)).IsEmpty = false ∧
      B.Difference (A.Intersect B) = B.Difference (A.Intersect B) := ⟨hne, rfl⟩
  rw [if_neg (diffB_ne_A hIE), if_neg (diffB_ne_B hIE),
    if_pos hcond] at hcnt
  have hpos : 0 < Multiset.count (B.Difference (A.Intersect B))
      ((splitStep l A B : List SourceSet) : Multiset SourceSet) := by
    split_ifs at hcnt <;> omega
  exact Multiset.mem_coe.mp (Multiset.count_pos.mp hpos)

theorem mem_splitStep_of_ne {l : List SourceSet} {A B : SourceSet}
    (h : findPair l = some (A, B)) {q : SourceSet} (hq : q ∈ l)
    (hqA : q ≠ A) (hqB : q ≠ B) : q ∈ splitStep l A B := by
  have hcnt := splitStep_count h q
  rw [if_neg hqA, if_neg hqB] at hcnt
  have hql : 0 < Multiset.count q (l : Multiset SourceSet) :=
    Multiset.count_pos.mpr (by simpa using hq)
  have hpos : 0 < Multiset.count q
      ((splitStep l A B : List SourceSet) : Multiset SourceSet) := by
    split_ifs at hcnt <;> omega
  exact Multiset.mem_coe.mp (Multiset.count_pos.mp hpos)

theorem muM_add (m n : Multiset SourceSet) : muM (m + n) = muM m + muM n := by
  simp [muM]

theorem muM_singleton (a : SourceSet) : muM {a} = sqCard a := by
  simp [muM]

theorem muM_zero : muM 0 = 0 := by
  simp [muM]

theorem mu_splitStep_lt {l : List SourceSet} {A B : SourceSet}
    (h : findPair l = some (A, B)) : mu (splitStep l A B) < mu l := by
  have hIE := (findPair_spec h).2
  have hmu := congrArg muM (splitStep_coe h)
  simp only [muM_add, muM_singleton, apply_ite muM, muM_zero] at hmu
  have ha : 1 ≤ (A.Intersect B).sources.card := by
    have hne := inter_sources_nonempty hIE
    have hne' : (A.Intersect B).sources ≠ ∅ := by rw [Intersect_sources]; exact hne
    exact Finset.card_pos.mpr (Finset.nonempty_iff_ne_empty.mpr hne')
  have hcA : A.sources.card
      = (A.Intersect B).sources.card
        + (A.Difference (A.Intersect B)).sources.card := by
    rw [Intersect_sources, diffA_sources]
    exact (Finset.card_inter_add_card_sdiff A.sources B.sources).symm
  have hcB : B.sources.card
      = (A.Intersect B).sources.card
        + (B.Difference (A.Intersect B)).sources.card := by
    rw [Intersect_sources, diffB_sources, Finset.inter_comm]
    exact (Finset.card_inter_add_card_sdiff B.sources A.sources).symm
  show muM ((splitStep l A B : List SourceSet) : Multiset SourceSet)
      < muM (l : Multiset SourceSet)
  simp only [sqCard] at hmu
  rw [hcA, hcB] at hmu
  set a := (A.Intersect B).sources.card
  set x := (A.Difference (A.Intersect B)).sources.card
  set y := (B.Difference (A.Intersect B)).sources.card
  have hite1 : (if (A.Difference (A.Intersect B)).IsEmpty = true then 0
      else x * x) ≤ x * x := by
    split_ifs <;> omega
  have hite2 : (if (B.Difference (A.Intersect B)).IsEmpty = true then 0
      else y * y) ≤ y * y := by
    split_ifs <;> omega
  have hle : muM ((splitStep l A B : List SourceSet) : Multiset SourceSet)
      + (a + x) * (a + x) + (a + y) * (a + y)
      ≤ muM (l : Multiset SourceSet) + a * a + x * x + y * y := by
    rw [hmu]
    linarith [hite1, hite2]
  nlinarith [hle, ha]

/-- The `while new_sets` loop of lines 533-560: repeatedly split the first
positively-intersecting pair, restarting the scan after each split, until no
such pair remains. -/
def partitionLoop (l : List SourceSet) : List SourceSet :=
  match h : findPair l with
  | none => l
  | some (A, B) => partitionLoop (splitStep l A B)
termination_by mu l
decreasing_by exact mu_splitStep_lt h

/-- Lines 524-562. `disjoint_sets = list(sets)` followed by the refinement
loop; the final list is returned unchanged. -/
def CreatePairwiseDisjointSets (sets : List SourceSet) : List SourceSet :=
  partitionLoop sets

theorem partitionLoop_none {l : List SourceSet} (h : findPair l = none) :
    partitionLoop l = l := by
  rw [partitionLoop, h]

theorem partitionLoop_some {l : List SourceSet} {A B : SourceSet}
    (h : findPair l = some (A, B)) :
    partitionLoop l = partitionLoop (splitStep l A B) := by
  conv_lhs => rw [partitionLoop, h]

/-- The explicitly fuelled refinement loop, used to express termination:
`none` means the fuel ran out before the scan found no pair. -/
def loopFuelO : ℕ → List SourceSet → Option (List SourceSet)
  | 0, _ => none
  | n + 1, l =>
    match findPair l with
    | none => some l
    | some (A, B) => loopFuelO n (splitStep l A B)

theorem loopFuelO_eq_partitionLoop :
    ∀ (n : ℕ) (l : List SourceSet), mu l < n →
      loopFuelO n l = some (partitionLoop l) := by
  intro n
  induction n with
  | zero => intro l hl; omega
  | succ n ih =>
    intro l hl
    cases h : findPair l with
    | none => rw [partitionLoop_none h]; simp [loopFuelO, h]
    | some AB =>
      obtain ⟨A, B⟩ := AB
      have hlt := mu_splitStep_lt h
      rw [partitionLoop_some h]
      show loopFuelO (n + 1) l = some (partitionLoop (splitStep l A B))
      rw [loopFuelO, h]
      exact ih (splitStep l A B) (by omega)

theorem partitionLoop_inv (P : List SourceSet → Prop)
    (hstep : ∀ l A B, findPair l = some (A, B) → P l → P (splitStep l A B)) :
    ∀ l, P l → P (partitionLoop l) := by
  suffices H : ∀ (n : ℕ) (l : List SourceSet), mu l < n → P l → P (partitionLoop l) by
    intro l hP
    exact H (mu l + 1) l (by omega) hP
  intro n
  induction n with
  | zero => intro l hl; omega
  | succ n ih =>
    intro l hl hP
    cases h : findPair l with
    | none => rw [partitionLoop_none h]; exact hP
    | some AB =>
      obtain ⟨A, B⟩ := AB
      have hlt := mu_splitStep_lt h
      rw [partitionLoop_some h]
      exact ih (splitStep l A B) (by omega) (hstep l A B h hP)

theorem findPair_partitionLoop (l : List SourceSet) :
    findPair (partitionLoop l) = none := by
  suffices H : ∀ (n : ℕ) (l : List SourceSet), mu l < n →
      findPair (partitionLoop l) = none by
    exact H (mu l + 1) l (by omega)
  intro n
  induction n with
  | zero => intro l hl; omega
  | succ n ih =>
    intro l hl
    cases h : findPair l with
    | none => rw [partitionLoop_none h]; exact h
    | some AB =>
      obtain ⟨A, B⟩ := AB
      have hlt := mu_splitStep_lt h
      rw [partitionLoop_some h]
      exact ih (splitStep l A B) (by omega)

/-- All three axis sets of a `SourceSet` are non-empty. -/
def axesNonempty (s : SourceSet) : Prop :=
  s.architectures ≠ ∅ ∧ s.targets ≠ ∅ ∧ s.platforms ≠ ∅

instance (s : SourceSet) : Decidable (axesNonempty s) := by
  unfold axesNonempty; infer_instance

theorem axes_inv_step (l : List SourceSet) (A B : SourceSet)
    (h : findPair l = some (A, B)) (hl : ∀ s ∈ l, axesNonempty s) :
    ∀ s ∈ splitStep l A B, axesNonempty s := by
  intro q hq
  obtain ⟨hAl, hBl⟩ := findPair_mem h
  rcases mem_splitStep_cases h hq with hql | hqi | ⟨hne, hqa⟩ | ⟨hne, hqb⟩
  · exact hl q hql
  · subst hqi
    obtain ⟨ha1, ha2, ha3⟩ := hl A hAl
    refine ⟨?_, ?_, ?_⟩ <;>
      · intro hcon
        first
        | exact ha1 (Finset.union_eq_empty.mp hcon).1
        | exact ha2 (Finset.union_eq_empty.mp hcon).1
        | exact ha3 (Finset.union_eq_empty.mp hcon).1
  · subst hqa
    obtain ⟨ha1, ha2, ha3⟩ := hl A hAl
    rw [axesNonempty, diffA_architectures, diffA_targets, diffA_platforms]
    exact ⟨ha1, ha2, ha3⟩
  · subst hqb
    obtain ⟨hb1, hb2, hb3⟩ := hl B hBl
    rw [axesNonempty, diffB_architectures, diffB_targets, diffB_platforms]
    exact ⟨hb1, hb2, hb3⟩

theorem findPair_none_pairwise {l : List SourceSet} (h : findPair l = none) :
    List.Pairwise (fun a b => (a.Intersect b).IsEmpty = true) l := by
  induction l with
  | nil => simp
  | cons x xs ih =>
    rw [findPair] at h
    cases hf : xs.find? (fun y => !(x.Intersect y).IsEmpty) with
    | some y => rw [hf] at h; cases h
    | none =>
      rw [hf] at h
      refine List.Pairwise.cons ?_ (ih h)
      intro y hy
      have := List.find?_eq_none.mp hf y hy
      simpa using this

theorem pairwise_disjoint_findPair_none {l : List SourceSet}
    (h : List.Pairwise (fun a b => a.sources ∩ b.sources = ∅) l) :
    findPair l = none := by
  induction l with
  | nil => rfl
  | cons x xs ih =>
    obtain ⟨hx, hxs⟩ := List.pairwise_cons.mp h
    rw [findPair]
    have hf : xs.find? (fun y => !(x.Intersect y).IsEmpty) = none := by
      rw [List.find?_eq_none]
      intro y hy
      have : (x.Intersect y).IsEmpty = true := by
        rw [SourceSet.IsEmpty_eq_true]
        exact Or.inl (by rw [Intersect_sources]; exact hx y hy)
      simp [this]
    rw [hf]
    exact ih hxs

theorem sources_disjoint_of_isEmpty_intersect {a b : SourceSet}
    (ha : axesNonempty a) (hI : (a.Intersect b).IsEmpty = true) :
    a.sources ∩ b.sources = ∅ := by
  rcases (SourceSet.IsEmpty_eq_true _).mp hI with h | h | h | h
  · rwa [Intersect_sources] at h
  · exact absurd (Finset.union_eq_empty.mp h).1 ha.1
  · exact absurd (Finset.union_eq_empty.mp h).1 ha.2.1
  · exact absurd (Finset.union_eq_empty.mp h).1 ha.2.2

theorem unique_of_pairwise_disjoint {l : List SourceSet}
    (hp : List.Pairwise (fun a b => a.sources ∩ b.sources = ∅) l)
    {T T' : SourceSet} (hT : T ∈ l) (hT' : T' ∈ l) {f : String}
    (hf : f ∈ T.sources) (hf' : f ∈ T'.sources) : T = T' := by
  induction l with
  | nil => cases hT
  | cons x xs ih =>
    obtain ⟨hx, hxs⟩ := List.pairwise_cons.mp hp
    rcases List.mem_cons.mp hT with rfl | hTxs
    · rcases List.mem_cons.mp hT' with rfl | hT'xs
      · rfl
      · exact absurd (hx T' hT'xs ▸ Finset.mem_inter.mpr ⟨hf, hf'⟩)
          (Finset.not_mem_empty f)
    · rcases List.mem_cons.mp hT' with rfl | hT'xs
      · exact absurd (hx T hTxs ▸ Finset.mem_inter.mpr ⟨hf', hf⟩)
          (Finset.not_mem_empty f)
      · exact ih hxs hTxs hT'xs

/-- A file is covered by some member of the collection. -/
def coveredBy (l : List SourceSet) (f : String) : Prop :=
  ∃ s ∈ l, f ∈ s.sources

theorem covered_inv_step (l : List SourceSet) (A B : SourceSet)
    (h : findPair l = some (A, B)) (hax : ∀ s ∈ l, axesNonempty s) (f : String) :
    coveredBy (splitStep l A B) f ↔ coveredBy l f := by
  obtain ⟨hAl, hBl⟩ := findPair_mem h
  constructor
  · rintro ⟨q, hq, hfq⟩
    rcases mem_splitStep_cases h hq with hql | hqi | ⟨-, hqa⟩ | ⟨-, hqb⟩
    · exact ⟨q, hql, hfq⟩
    · subst hqi
      rw [Intersect_sources] at hfq
      exact ⟨A, hAl, (Finset.mem_inter.mp hfq).1⟩
    · subst hqa
      rw [diffA_sources] at hfq
      exact ⟨A, hAl, (Finset.mem_sdiff.mp hfq).1⟩
    · subst hqb
      rw [diffB_sources] at hfq
      exact ⟨B, hBl, (Finset.mem_sdiff.mp hfq).1⟩
  · rintro ⟨s, hs, hfs⟩
    by_cases hsA : s = A
    · subst hsA
      by_cases hfB : f ∈ B.sources
      · refine ⟨s.Intersect B, inter_mem_splitStep h, ?_⟩
        rw [Intersect_sources]
        exact Finset.mem_inter.mpr ⟨hfs, hfB⟩
      · have hfd : f ∈ (s.Difference (s.Intersect B)).sources := by
          rw [diffA_sources]
          exact Finset.mem_sdiff.mpr ⟨hfs, hfB⟩
        have hne : (s.Difference (s.Intersect B)).IsEmpty = false := by
          rw [SourceSet.IsEmpty_eq_false, diffA_architectures, diffA_targets,
            diffA_platforms]
          obtain ⟨h1, h2, h3⟩ := hax s hs
          exact ⟨fun hcon => by simp [hcon] at hfd, h1, h2, h3⟩
        exact ⟨s.Difference (s.Intersect B), diffA_mem_splitStep h hne, hfd⟩
    · by_cases hsB : s = B
      · subst hsB
        by_cases hfA : f ∈ A.sources
        · refine ⟨A.Intersect s, inter_mem_splitStep h, ?_⟩
          rw [Intersect_sources]
          exact Finset.mem_inter.mpr ⟨hfA, hfs⟩
        · have hfd : f ∈ (s.Difference (A.Intersect s)).sources := by
            rw [diffB_sources]
            exact Finset.mem_sdiff.mpr ⟨hfs, hfA⟩
          have hne : (s.Difference (A.Intersect s)).IsEmpty = false := by
            rw [SourceSet.IsEmpty_eq_false, diffB_architectures, diffB_targets,
              diffB_platforms]
            obtain ⟨h1, h2, h3⟩ := hax s hs
            exact ⟨fun hcon => by simp [hcon] at hfd, h1, h2, h3⟩
          exact ⟨s.Difference (A.Intersect s), diffB_mem_splitStep h hne, hfd⟩
      · exact ⟨s, mem_splitStep_of_ne h hs hsA hsB, hfs⟩

/-- The union of all file sets in a collection. -/
def unionSources (l : List SourceSet) : Finset String :=
  l.foldr (fun s acc => s.sources ∪ acc) ∅

theorem mem_unionSources {l : List SourceSet} {f : String} :
    f ∈ unionSources l ↔ coveredBy l f := by
  induction l with
  | nil => simp [unionSources, coveredBy]
  | cons x xs ih =>
    simp [unionSources, coveredBy] at ih ⊢
    exact or_congr Iff.rfl ih

theorem axisCover_inv_step (l₀ : List SourceSet) (l : List SourceSet)
    (A B : SourceSet) (h : findPair l = some (A, B))
    (hax : ∀ s ∈ l, axesNonempty s)
    (hcov : ∀ S ∈ l₀, ∀ f ∈ S.sources, ∃ T ∈ l, f ∈ T.sources ∧
      S.architectures ⊆ T.architectures ∧ S.targets ⊆ T.targets ∧
      S.platforms ⊆ T.platforms) :
    ∀ S ∈ l₀, ∀ f ∈ S.sources, ∃ T ∈ splitStep l A B, f ∈ T.sources ∧
      S.architectures ⊆ T.architectures ∧ S.targets ⊆ T.targets ∧
      S.platforms ⊆ T.platforms := by
  intro S hS f hf
  obtain ⟨T, hT, hfT, harch, htgt, hplat⟩ := hcov S hS f hf
  by_cases hTA : T = A
  · subst hTA
    by_cases hfB : f ∈ B.sources
    · refine ⟨T.Intersect B, inter_mem_splitStep h, ?_, ?_, ?_, ?_⟩
      · rw [Intersect_sources]; exact Finset.mem_inter.mpr ⟨hfT, hfB⟩
      · exact harch.trans Finset.subset_union_left
      · exact htgt.trans Finset.subset_union_left
      · exact hplat.trans Finset.subset_union_left
    · have hfd : f ∈ (T.Difference (T.Intersect B)).sources := by
        rw [diffA_sources]
        exact Finset.mem_sdiff.mpr ⟨hfT, hfB⟩
      have hne : (T.Difference (T.Intersect B)).IsEmpty = false := by
        rw [SourceSet.IsEmpty_eq_false, diffA_architectures, diffA_targets,
          diffA_platforms]
        obtain ⟨h1, h2, h3⟩ := hax T hT
        exact ⟨fun hcon => by simp [hcon] at hfd, h1, h2, h3⟩
      refine ⟨T.Difference (T.Intersect B), diffA_mem_splitStep h hne, hfd,
        ?_, ?_, ?_⟩
      · rw [diffA_architectures]; exact harch
      · rw [diffA_targets]; exact htgt
      · rw [diffA_platforms]; exact hplat
  · by_cases hTB : T = B
    · subst hTB
      by_cases hfA : f ∈ A.sources
      · refine ⟨A.Intersect T, inter_mem_splitStep h, ?_, ?_, ?_, ?_⟩
        · rw [Intersect_sources]; exact Finset.mem_inter.mpr ⟨hfA, hfT⟩
        · exact harch.trans Finset.subset_union_right
        · exact htgt.trans Finset.subset_union_right
        · exact hplat.trans Finset.subset_union_right
      · have hfd : f ∈ (T.Difference (A.Intersect T)).sources := by
          rw [diffB_sources]
          exact Finset.mem_sdiff.mpr ⟨hfT, hfA⟩
        have hne : (T.Difference (A.Intersect T)).IsEmpty = false := by
          rw [SourceSet.IsEmpty_eq_false, diffB_architectures, diffB_targets,
            diffB_platforms]
          obtain ⟨h1, h2, h3⟩ := hax T hT
          exact ⟨fun hcon => by simp [hcon] at hfd, h1, h2, h3⟩
        refine ⟨T.Difference (A.Intersect T), diffB_mem_splitStep h hne, hfd,
          ?_, ?_, ?_⟩
        · rw [diffB_architectures]; exact harch
        · rw [diffB_targets]; exact htgt
        · rw [diffB_platforms]; exact hplat
    · exact ⟨T, mem_splitStep_of_ne h hT hTA hTB, hfT, harch, htgt, hplat⟩

theorem nonEmpty_inv_step (l : List SourceSet) (A B : SourceSet)
    (h : findPair l = some (A, B)) (hl : ∀ s ∈ l, s.IsEmpty = false) :
    ∀ s ∈ splitStep l A B, s.IsEmpty = false := by
  intro q hq
  rcases mem_splitStep_cases h hq with hql | hqi | ⟨hne, hqa⟩ | ⟨hne, hqb⟩
  · exact hl q hql
  · subst hqi; exact (findPair_spec h).2
  · subst hqa; exact hne
  · subst hqb; exact hne

def SUPPORTED_ARCHITECTURES : List String := ["ia32", "arm", "arm-neon", "x64", "mipsel"]

def SUPPORTED_TARGETS : List String := ["Chromium", "Chrome", "ChromiumOS", "ChromeOS", "Ensemble"]

def SUPPORTED_PLATFORMS : List String := ["linux", "win"]

/-- Canonical listing of a Python set; the source iterates sets in
unspecified order, the model fixes the lexicographic one. -/
def sortedStrings (s : Finset String) : List String := s.sort (· ≤ ·)

/-- Lines 378-386: architecture conditions of the gyp renderer. -/
def gypArchConditions (archs : Finset String) : List String :=
  if archs = SUPPORTED_ARCHITECTURES.toFinset then ["1"]
  else (sortedStrings archs).map (fun arch =>
    if arch = "arm-neon" then "(target_arch == \"arm\" and arm_neon == 1)"
    else "target_arch == \"" ++ arch ++ "\"")

/-- Lines 390-395: branding conditions of the gyp renderer. -/
def gypBrandingConditions (targets : Finset String) : List String :=
  if targets = SUPPORTED_TARGETS.toFinset then ["1"]
  else (sortedStrings targets).map (fun branding =>
    "ffmpeg_branding == \"" ++ branding ++ "\"")

/-- Lines 397-403: platform conditions of the gyp renderer; the full domain
and the bare baseline platform both collapse to the trivial condition. -/
def gypPlatformConditions (platforms : Finset String) : List String :=
  if platforms = SUPPORTED_PLATFORMS.toFinset ∨ platforms = {"linux"} then ["1"]
  else (sortedStrings platforms).map (fun platform =>
    "OS == \"" ++ platform ++ "\"")

def joinOr (l : List String) : String := String.intercalate " or " l

/-- Lines 405-407: the conjoined gyp condition string. -/
def gypConditions (s : SourceSet) : String :=
  "(" ++ joinOr (gypArchConditions s.architectures) ++ ") and ("
      ++ joinOr (gypBrandingConditions s.targets) ++ ") and ("
      ++ joinOr (gypPlatformConditions s.platforms) ++ ")"

/-- Lines 444-452: architecture conditions of the gn renderer. -/
def gnArchConditions (archs : Finset String) : List String :=
  if archs = SUPPORTED_ARCHITECTURES.toFinset then []
  else (sortedStrings archs).map (fun arch =>
    if arch = "arm-neon" then "(current_cpu == \"arm\" && arm_use_neon)"
    else if arch = "ia32" then "current_cpu == \"x86\""
    else "current_cpu == \"" ++ arch ++ "\"")

/-- Lines 457-460: branding conditions of the gn renderer. -/
def gnBrandingConditions (targets : Finset String) : List String :=
  if targets = SUPPORTED_TARGETS.toFinset then []
  else (sortedStrings targets).map (fun branding =>
    "ffmpeg_branding == \"" ++ branding ++ "\"")

/-- Lines 464-468: platform conditions of the gn renderer. -/
def gnPlatformConditions (platforms : Finset String) : List String :=
  if platforms ≠ SUPPORTED_PLATFORMS.toFinset ∧ platforms ≠ {"linux"} then
    (sortedStrings platforms).map (fun platform => "is_" ++ platform)
  else []

def joinOrGn (l : List String) : String := String.intercalate " || " l

/-- Lines 470-478: the non-empty per-axis clauses, parenthesised when more
than one remains. -/
def gnConditions (s : SourceSet) : List String :=
  let conditions := ([joinOrGn (gnArchConditions s.architectures),
                      joinOrGn (gnBrandingConditions s.targets),
                      joinOrGn (gnPlatformConditions s.platforms)].filter
    (fun c => c ≠ ""))
  if 1 < conditions.length then conditions.map (fun x => "(" ++ x ++ ")")
  else conditions

/-- Character-wise embedding of line 412's `n.replace('\\', '/')`: pattern
and replacement are single characters, so the call replaces every backslash
character by a slash. -/
def normSep (s : String) : String :=
  String.mk (s.data.map (fun c => if c = '\\' then '/' else c))

/-- Line 412/490: the separator-normalized, lexicographically sorted listing
of a source-file set. -/
def sortedNormSources (s : SourceSet) : List String :=
  Multiset.sort (· ≤ ·) (s.sources.val.map normSep)

/-- Python `os.path.splitext`'s extension for a slash-separated path: the
suffix of the last component starting at its last dot, where leading dots of
the component do not count. -/
def extOf (f : String) : String :=
  let base := (f.splitOn "/").getLastD f
  let stripped := base.data.dropWhile (fun c => c = '.')
  if stripped.contains '.' then
    String.mk ('.' :: (stripped.reverse.takeWhile (fun c => c ≠ '.')).reverse)
  else ""

/-- Line 203. -/
def IsAssemblyFile (f : String) : Bool := decide (extOf f ∈ [".S", ".asm"])

/-- Line 207. -/
def IsGasFile (f : String) : Bool := decide (extOf f ∈ [".S"])

/-- Line 211. -/
def IsYasmFile (f : String) : Bool := decide (extOf f ∈ [".asm"])

/-- Line 215. -/
def IsCFile (f : String) : Bool := decide (extOf f ∈ [".c"])

/-- Lines 409-431: the gyp stanza text for one source set. -/
def GenerateGypStanzaText (s : SourceSet) : String :=
  let conditions := gypConditions s
  let sources := sortedNormSources s
  let c_sources := sources.filter IsCFile
  let asm_sources := sources.filter IsAssemblyFile
  "      [\x27" ++ conditions ++ "\x27, \x7b\n"
  ++ (if c_sources ≠ [] then
        "        \x27c_sources\x27: [\n"
        ++ String.join (c_sources.map (fun name =>
             "          \x27" ++ name ++ "\x27,\n"))
        ++ "        ],\n"
      else "")
  ++ (if asm_sources ≠ [] then
        "        \x27asm_sources\x27: [\n"
        ++ String.join (asm_sources.map (fun name =>
             "          \x27" ++ name ++ "\x27,\n"))
        ++ "        ],\n"
      else "")
  ++ "      \x7d],  # " ++ conditions ++ "\n"

/-- The observable effect of `GenerateGypStanza` (lines 365-431): the stanza
text together with the value assigned to `self.sources` at line 412 — the
call replaces the operand's file set by its sorted normalized listing. -/
def GenerateGypStanzaRun (s : SourceSet) : String × List String :=
  (GenerateGypStanzaText s, sortedNormSources s)

/-- Lines 433-521: the gn stanza text for one source set. -/
def GenerateGnStanza (s : SourceSet) : String :=
  let conditionsList := gnConditions s
  let indent := fun (t : String) => if conditionsList ≠ [] then "  " ++ t else t
  let sources := sortedNormSources s
  let c_sources := sources.filter IsCFile
  let gas_sources := sources.filter IsGasFile
  let yasm_sources := sources.filter IsYasmFile
  (if conditionsList ≠ [] then
    "if (" ++ String.intercalate " && " conditionsList ++ ") \x7b\n" else "")
  ++ (if c_sources ≠ [] then
        indent "ffmpeg_c_sources += [\n"
        ++ String.join (c_sources.map (fun name =>
             indent ("  \"" ++ name ++ "\",\n")))
        ++ indent "]\n"
      else "")
  ++ (if gas_sources ≠ [] then
        indent "ffmpeg_gas_sources += [\n"
        ++ String.join (gas_sources.map (fun name =>
             indent ("  \"" ++ name ++ "\",\n")))
        ++ indent "]\n"
      else "")
  ++ (if yasm_sources ≠ [] then
        indent "ffmpeg_yasm_sources += [\n"
        ++ String.join (yasm_sources.map (fun name =>
             indent ("  \"" ++ name ++ "\",\n")))
        ++ indent "]\n"
      else "")
  ++ (if conditionsList ≠ [] then "\x7d\n\n" else "\n")

/-- `GenerateGnStanza` uses only method-local state (line 490 binds a local
`sources`), so the operand is returned unchanged. -/
def GenerateGnStanzaRun (s : SourceSet) : String × SourceSet :=
  (GenerateGnStanza s, s)

/-- The method bodies of lines 334-356 read their operands and build a new
object; the state-passing embedding returns the result together with the
post-call operands. -/
def IntersectRun (a b : SourceSet) : SourceSet × SourceSet × SourceSet :=
  (a.Intersect b, a, b)

def DifferenceRun (a b : SourceSet) : SourceSet × SourceSet × SourceSet :=
  (a.Difference b, a, b)

/-- Lines 660-667. -/
def LICENSE_WHITELIST : List String :=
  ["BSD (3 clause) LGPL (v2.1 or later)",
   "ISC GENERATED FILE",
   "LGPL (v2.1 or later)",
   "LGPL (v2.1 or later) GENERATED FILE",
   "MIT/X11 (BSD like)",
   "Public domain LGPL (v2.1 or later)"]

/-- Lines 671-676. -/
def UNKNOWN_WHITELIST : List String :=
  ["jrevdct.c", "jfdctfst.c", "jfdctint_template.c"]

/-- Python `os.path.basename` for slash-separated paths. -/
def basenameOf (path : String) : String := (path.splitOn "/").getLastD path

/-- Lines 730-759, with the external `licensecheck.pl` classifier abstracted
as `licenseOf` (the already-parsed license string of lines 748-750). The
first component is the lines the call prints: accepted licenses are echoed
when `printLicenses` is set (lines 754-755), a rejected file is always
reported with its detected license (line 758). -/
def CheckLicenseForSourceRun (licenseOf : String → String) (printLicenses : Bool)
    (source : String) : List String × Bool :=
  let license := licenseOf source
  if license ∈ LICENSE_WHITELIST ∨
      (license = "UNKNOWN" ∧ basenameOf source ∈ UNKNOWN_WHITELIST) then
    ((if printLicenses then [source ++ " : " ++ license] else []), true)
  else
    (["Unexpected license. " ++ source ++ ":.." ++ license ++ ".."], false)

/-- Lines 762-774: every file of the accumulated closure set is checked; a
failure clears the flag but never stops the scan. The include-closure walk
itself (lines 679-727) reads the filesystem and is abstracted as the
`sourcesToCheck` list handed in. -/
def CheckLicensesForStaticLinkingRun (licenseOf : String → String)
    (printLicenses : Bool) (sourcesToCheck : List String) : List String × Bool :=
  sourcesToCheck.foldl (fun st source =>
    let r := CheckLicenseForSourceRun licenseOf printLicenses source
    (st.1 ++ r.1, if r.2 then st.2 else false)) ([], true)

/-- Lines 81-87, with `datetime.datetime.now().year` a parameter. -/
def COPYRIGHT (year : ℕ) : String :=
  "# Copyright " ++ toString year ++ " The Chromium Authors. All rights reserved.\n# Use of this source code is governed by a BSD-style license that can be\n# found in the LICENSE file.\n\n# NOTE: this file is autogenerated by ffmpeg/chromium/scripts/generate_gyp.py\n\n"

def GYP_HEADER : String := "\n\x7b\n  \x27variables\x27: \x7b\n"

def GYP_FOOTER : String := "  \x7d,\n\x7d\n"

def GYP_CONDITIONAL_BEGIN : String := "    \x27conditions\x27: [\n"

def GYP_CONDITIONAL_END : String := "    ],  # conditions\n"

def GN_HEADER : String := "import(\"//build/config/arm.gni\")\nimport(\"ffmpeg_options.gni\")\n\n# Declare empty versions of each variable for easier +=ing later.\nffmpeg_c_sources = []\nffmpeg_gas_sources = []\nffmpeg_yasm_sources = []\n\n"

/-- Lines 618-628. -/
def WriteGypText (year : ℕ) (disjoint_sets : List SourceSet) : String :=
  COPYRIGHT year ++ GYP_HEADER ++ GYP_CONDITIONAL_BEGIN
  ++ String.join (disjoint_sets.map (fun s => GenerateGypStanzaText s))
  ++ GYP_CONDITIONAL_END ++ GYP_FOOTER

/-- Lines 631-637: gn stanzas are written in reverse order. -/
def WriteGnText (year : ℕ) (disjoint_sets : List SourceSet) : String :=
  COPYRIGHT year ++ GN_HEADER
  ++ String.join (disjoint_sets.reverse.map (fun s => GenerateGnStanza s))

/-- Lines 818-835 of `main`: the license gate decides whether an output
artifact is produced at all; `none` models the failing branch that writes
nothing. -/
def mainOutput (year : ℕ) (licenseOf : String → String)
    (printLicenses outputGn : Bool) (sets : List SourceSet)
    (sourcesToCheck : List String) : Option String :=
  if (CheckLicensesForStaticLinkingRun licenseOf printLicenses sourcesToCheck).2 then
    some (if outputGn then WriteGnText year sets else WriteGypText year sets)
  else none

theorem partitionLoop_axes (l : List SourceSet) (hax : ∀ s ∈ l, axesNonempty s) :
    ∀ s ∈ partitionLoop l, axesNonempty s :=
  partitionLoop_inv (fun l' => ∀ s ∈ l', axesNonempty s)
    (fun l' A B h hP => axes_inv_step l' A B h hP) l hax

theorem partitionLoop_pairwise_disjoint (l : List SourceSet)
    (hax : ∀ s ∈ l, axesNonempty s) :
    List.Pairwise (fun a b => a.sources ∩ b.sources = ∅) (partitionLoop l) := by
  refine List.Pairwise.imp_of_mem ?_
    (findPair_none_pairwise (findPair_partitionLoop l))
  intro a b ha hb hI
  exact sources_disjoint_of_isEmpty_intersect (partitionLoop_axes l hax a ha) hI

theorem partitionLoop_covered (l : List SourceSet)
    (hax : ∀ s ∈ l, axesNonempty s) (f : String) :
    coveredBy (partitionLoop l) f ↔ coveredBy l f :=
  (partitionLoop_inv
    (fun l' => (∀ s ∈ l', axesNonempty s) ∧ ∀ g, (coveredBy l' g ↔ coveredBy l g))
    (fun l' A B h hP => ⟨axes_inv_step l' A B h hP.1,
      fun g => (covered_inv_step l' A B h hP.1 g).trans (hP.2 g)⟩)
    l ⟨hax, fun _ => Iff.rfl⟩).2 f

theorem partitionLoop_axisCover (l : List SourceSet)
    (hax : ∀ s ∈ l, axesNonempty s) :
    ∀ S ∈ l, ∀ f ∈ S.sources, ∃ T ∈ partitionLoop l, f ∈ T.sources ∧
      S.architectures ⊆ T.architectures ∧ S.targets ⊆ T.targets ∧
      S.platforms ⊆ T.platforms :=
  (partitionLoop_inv
    (fun l' => (∀ s ∈ l', axesNonempty s) ∧
      ∀ S ∈ l, ∀ f ∈ S.sources, ∃ T ∈ l', f ∈ T.sources ∧
        S.architectures ⊆ T.architectures ∧ S.targets ⊆ T.targets ∧
        S.platforms ⊆ T.platforms)
    (fun l' A B h hP => ⟨axes_inv_step l' A B h hP.1,
      axisCover_inv_step l l' A B h hP.1 hP.2⟩)
    l ⟨hax, fun S hS f hf =>
      ⟨S, hS, hf, subset_refl _, subset_refl _, subset_refl _⟩⟩).2

/-- C1 (amended): for every input list whose members all have non-empty
architecture, target and platform sets, any two distinct members of the list
returned by `CreatePairwiseDisjointSets` have disjoint file sets. -/
theorem disjointness_of_output_axesNonempty (l : List SourceSet)
    (hax : ∀ s ∈ l, axesNonempty s) :
    List.Pairwise (fun a b => a.sources ∩ b.sources = ∅)
      (CreatePairwiseDisjointSets l) :=
  partitionLoop_pairwise_disjoint l hax

theorem disjointness_of_output_axesNonempty_witness :
    (∀ s ∈ [(⟨{"a", "b"}, {"x"}, {"t"}, {"p"}⟩ : SourceSet),
        ⟨{"b", "c"}, {"y"}, {"t"}, {"p"}⟩], axesNonempty s) ∧
    List.Pairwise (fun a b => a.sources ∩ b.sources = ∅)
      (CreatePairwiseDisjointSets
        [⟨{"a", "b"}, {"x"}, {"t"}, {"p"}⟩, ⟨{"b", "c"}, {"y"}, {"t"}, {"p"}⟩]) :=
  ⟨by decide, disjointness_of_output_axesNonempty _ (by decide)⟩

/-- C1, claim as frozen, refuted: on an input whose members have empty
architecture sets the loop stops immediately (`IsEmpty` of every pairwise
intersection is true through the empty axis union), leaving two distinct
output members that share the file "f". -/
theorem disjointness_fails_on_empty_axis_input :
    ¬ List.Pairwise (fun a b => a.sources ∩ b.sources = ∅)
      (CreatePairwiseDisjointSets
        [⟨{"f", "g"}, ∅, {"t"}, {"p"}⟩, ⟨{"f", "h"}, ∅, {"t"}, {"p"}⟩]) := by
  have hval : CreatePairwiseDisjointSets
      [(⟨{"f", "g"}, ∅, {"t"}, {"p"}⟩ : SourceSet), ⟨{"f", "h"}, ∅, {"t"}, {"p"}⟩]
      = [⟨{"f", "g"}, ∅, {"t"}, {"p"}⟩, ⟨{"f", "h"}, ∅, {"t"}, {"p"}⟩] := by
    have h1 := loopFuelO_eq_partitionLoop 9
      [(⟨{"f", "g"}, ∅, {"t"}, {"p"}⟩ : SourceSet), ⟨{"f", "h"}, ∅, {"t"}, {"p"}⟩]
      (by decide)
    have h2 : loopFuelO 9
        [(⟨{"f", "g"}, ∅, {"t"}, {"p"}⟩ : SourceSet), ⟨{"f", "h"}, ∅, {"t"}, {"p"}⟩]
        = some [⟨{"f", "g"}, ∅, {"t"}, {"p"}⟩, ⟨{"f", "h"}, ∅, {"t"}, {"p"}⟩] := by
      decide
    exact Option.some.inj (h1.symm.trans h2)
  rw [hval]
  decide

/-- C2 (amended): for every input list whose members all have non-empty
architecture, target and platform sets, the union of the output file sets
equals the union of the input file sets. -/
theorem coverage_of_output_axesNonempty (l : List SourceSet)
    (hax : ∀ s ∈ l, axesNonempty s) :
    unionSources (CreatePairwiseDisjointSets l) = unionSources l := by
  ext f
  rw [mem_unionSources, mem_unionSources]
  exact partitionLoop_covered l hax f

theorem coverage_of_output_axesNonempty_witness :
    (∀ s ∈ [(⟨{"a", "b"}, {"x"}, {"t"}, {"p"}⟩ : SourceSet),
        ⟨{"b", "c"}, {"y"}, {"t"}, {"p"}⟩], axesNonempty s) ∧
    unionSources (CreatePairwiseDisjointSets
        [⟨{"a", "b"}, {"x"}, {"t"}, {"p"}⟩, ⟨{"b", "c"}, {"y"}, {"t"}, {"p"}⟩])
      = unionSources
        [⟨{"a", "b"}, {"x"}, {"t"}, {"p"}⟩, ⟨{"b", "c"}, {"y"}, {"t"}, {"p"}⟩] :=
  ⟨by decide, coverage_of_output_axesNonempty _ (by decide)⟩

/-- C2, claim as frozen, refuted: with an empty-architecture member the file
"g" is lost — the difference `⟨{"g"}, ∅, {"t"}, {"p"}⟩` is discarded as
empty because its architecture set is empty, although its file set is not. -/
theorem coverage_fails_on_empty_axis_input :
    unionSources (CreatePairwiseDisjointSets
        [⟨{"f", "g"}, ∅, {"t"}, {"p"}⟩, ⟨{"f"}, {"a"}, {"t"}, {"p"}⟩])
      ≠ unionSources
        [⟨{"f", "g"}, ∅, {"t"}, {"p"}⟩, ⟨{"f"}, {"a"}, {"t"}, {"p"}⟩] := by
  have hval : CreatePairwiseDisjointSets
      [(⟨{"f", "g"}, ∅, {"t"}, {"p"}⟩ : SourceSet), ⟨{"f"}, {"a"}, {"t"}, {"p"}⟩]
      = [⟨{"f"}, {"a"}, {"t"}, {"p"}⟩] := by
    have h1 := loopFuelO_eq_partitionLoop 6
      [(⟨{"f", "g"}, ∅, {"t"}, {"p"}⟩ : SourceSet), ⟨{"f"}, {"a"}, {"t"}, {"p"}⟩]
      (by decide)
    have h2 : loopFuelO 6
        [(⟨{"f", "g"}, ∅, {"t"}, {"p"}⟩ : SourceSet), ⟨{"f"}, {"a"}, {"t"}, {"p"}⟩]
        = some [⟨{"f"}, {"a"}, {"t"}, {"p"}⟩] := by decide
    exact Option.some.inj (h1.symm.trans h2)
  rw [hval]
  decide

/-- C3: for singleton-axis inputs, the output member containing a file `f`
carries the axis values of every input member containing `f`. -/
theorem axis_correctness_of_output (l : List SourceSet)
    (hsing : ∀ s ∈ l, (∃ a, s.architectures = {a}) ∧ (∃ t, s.targets = {t}) ∧
      (∃ p, s.platforms = {p}))
    (S : SourceSet) (hS : S ∈ l) (f : String) (hf : f ∈ S.sources)
    (T : SourceSet) (hT : T ∈ CreatePairwiseDisjointSets l)
    (hfT : f ∈ T.sources) :
    S.architectures ⊆ T.architectures ∧ S.targets ⊆ T.targets ∧
    S.platforms ⊆ T.platforms := by
  have hax : ∀ s ∈ l, axesNonempty s := by
    intro s hs
    obtain ⟨⟨a, ha⟩, ⟨t, ht⟩, ⟨p, hp⟩⟩ := hsing s hs
    refine ⟨?_, ?_, ?_⟩
    · rw [ha]; simp
    · rw [ht]; simp
    · rw [hp]; simp
  obtain ⟨T', hT', hfT', harch, htgt, hplat⟩ :=
    partitionLoop_axisCover l hax S hS f hf
  have hTT' : T = T' :=
    unique_of_pairwise_disjoint (partitionLoop_pairwise_disjoint l hax)
      hT hT' hfT hfT'
  rw [hTT']
  exact ⟨harch, htgt, hplat⟩

theorem axis_correctness_of_output_witness :
    (∀ s ∈ [(⟨{"a", "b"}, {"x"}, {"t"}, {"p"}⟩ : SourceSet)],
      (∃ a, s.architectures = {a}) ∧ (∃ t, s.targets = {t}) ∧
      (∃ p, s.platforms = {p})) ∧
    (⟨{"a", "b"}, {"x"}, {"t"}, {"p"}⟩ : SourceSet)
        ∈ [(⟨{"a", "b"}, {"x"}, {"t"}, {"p"}⟩ : SourceSet)] ∧
    "a" ∈ (⟨{"a", "b"}, {"x"}, {"t"}, {"p"}⟩ : SourceSet).sources ∧
    (⟨{"a", "b"}, {"x"}, {"t"}, {"p"}⟩ : SourceSet)
        ∈ CreatePairwiseDisjointSets [⟨{"a", "b"}, {"x"}, {"t"}, {"p"}⟩] ∧
    "a" ∈ (⟨{"a", "b"}, {"x"}, {"t"}, {"p"}⟩ : SourceSet).sources ∧
    ((⟨{"a", "b"}, {"x"}, {"t"}, {"p"}⟩ : SourceSet).architectures
        ⊆ (⟨{"a", "b"}, {"x"}, {"t"}, {"p"}⟩ : SourceSet).architectures ∧
      (⟨{"a", "b"}, {"x"}, {"t"}, {"p"}⟩ : SourceSet).targets
        ⊆ (⟨{"a", "b"}, {"x"}, {"t"}, {"p"}⟩ : SourceSet).targets ∧
      (⟨{"a", "b"}, {"x"}, {"t"}, {"p"}⟩ : SourceSet).platforms
        ⊆ (⟨{"a", "b"}, {"x"}, {"t"}, {"p"}⟩ : SourceSet).platforms) := by
  have hsing : ∀ s ∈ [(⟨{"a", "b"}, {"x"}, {"t"}, {"p"}⟩ : SourceSet)],
      (∃ a, s.architectures = {a}) ∧ (∃ t, s.targets = {t}) ∧
      (∃ p, s.platforms = {p}) := by
    intro s hs
    rw [List.mem_singleton] at hs
    subst hs
    exact ⟨⟨"x", rfl⟩, ⟨"t", rfl⟩, ⟨"p", rfl⟩⟩
  have hmem : (⟨{"a", "b"}, {"x"}, {"t"}, {"p"}⟩ : SourceSet)
      ∈ CreatePairwiseDisjointSets [⟨{"a", "b"}, {"x"}, {"t"}, {"p"}⟩] := by
    have h1 := loopFuelO_eq_partitionLoop 5
      [(⟨{"a", "b"}, {"x"}, {"t"}, {"p"}⟩ : SourceSet)] (by decide)
    have h2 : loopFuelO 5 [(⟨{"a", "b"}, {"x"}, {"t"}, {"p"}⟩ : SourceSet)]
        = some [⟨{"a", "b"}, {"x"}, {"t"}, {"p"}⟩] := by decide
    have hval : CreatePairwiseDisjointSets
        [(⟨{"a", "b"}, {"x"}, {"t"}, {"p"}⟩ : SourceSet)]
        = [⟨{"a", "b"}, {"x"}, {"t"}, {"p"}⟩] :=
      Option.some.inj (h1.symm.trans h2)
    rw [hval]
    decide
  have hfs : "a" ∈ (⟨{"a", "b"}, {"x"}, {"t"}, {"p"}⟩ : SourceSet).sources := by
    decide
  refine ⟨hsing, List.mem_singleton_self _, hfs, hmem, hfs, ?_⟩
  exact axis_correctness_of_output _ hsing _ (List.mem_singleton_self _) _ hfs _
    hmem hfs

/-- C4: the refinement loop terminates — some finite fuel lets the fuelled
loop reach the pair-free state, returning exactly what
`CreatePairwiseDisjointSets` returns. -/
theorem createPairwiseDisjointSets_terminates (sets : List SourceSet) :
    ∃ n, loopFuelO n sets = some (CreatePairwiseDisjointSets sets) :=
  ⟨mu sets + 1, loopFuelO_eq_partitionLoop (mu sets + 1) sets (by omega)⟩

/-- C5 (amended): when no input member is empty in the sense of `IsEmpty`,
no output member is: the loop only ever adds intersections and differences
it has checked to be non-empty. -/
theorem no_empty_sets_in_output_of_nonEmpty_input (l : List SourceSet)
    (h : ∀ s ∈ l, s.IsEmpty = false) :
    ∀ s ∈ CreatePairwiseDisjointSets l, s.IsEmpty = false :=
  partitionLoop_inv (fun l' => ∀ s ∈ l', s.IsEmpty = false)
    nonEmpty_inv_step l h

theorem no_empty_sets_in_output_of_nonEmpty_input_witness :
    (∀ s ∈ [(⟨{"a"}, {"x"}, {"t"}, {"p"}⟩ : SourceSet)], s.IsEmpty = false) ∧
    (∀ s ∈ CreatePairwiseDisjointSets [(⟨{"a"}, {"x"}, {"t"}, {"p"}⟩ : SourceSet)],
      s.IsEmpty = false) :=
  ⟨by decide, no_empty_sets_in_output_of_nonEmpty_input _ (by decide)⟩

/-- C5, claim as frozen, refuted: the code has no discard phase — an input
member with an empty file set is returned unchanged, so the output contains
an empty SourceSet. -/
theorem empty_input_set_not_discarded :
    ¬ (∀ s ∈ CreatePairwiseDisjointSets [(⟨∅, {"a"}, {"t"}, {"p"}⟩ : SourceSet)],
        s.IsEmpty = false) := by
  have h1 := loopFuelO_eq_partitionLoop 2
    [(⟨∅, {"a"}, {"t"}, {"p"}⟩ : SourceSet)] (by decide)
  have h2 : loopFuelO 2 [(⟨∅, {"a"}, {"t"}, {"p"}⟩ : SourceSet)]
      = some [⟨∅, {"a"}, {"t"}, {"p"}⟩] := by decide
  have hval : CreatePairwiseDisjointSets [(⟨∅, {"a"}, {"t"}, {"p"}⟩ : SourceSet)]
      = [⟨∅, {"a"}, {"t"}, {"p"}⟩] :=
    Option.some.inj (h1.symm.trans h2)
  rw [hval]
  decide

/-- C10: on an input whose file sets are already pairwise disjoint the very
first scan finds no positively-intersecting pair, so the input list is
returned exactly, in order, unchanged. -/
theorem createPairwiseDisjointSets_fixed_point_on_disjoint (l : List SourceSet)
    (h : List.Pairwise (fun a b => a.sources ∩ b.sources = ∅) l) :
    CreatePairwiseDisjointSets l = l :=
  partitionLoop_none (pairwise_disjoint_findPair_none h)

theorem createPairwiseDisjointSets_fixed_point_on_disjoint_witness :
    List.Pairwise (fun a b => a.sources ∩ b.sources = ∅)
      [(⟨{"a"}, {"x"}, {"t"}, {"p"}⟩ : SourceSet),
        ⟨{"b"}, {"y"}, {"t"}, {"p"}⟩] ∧
    CreatePairwiseDisjointSets
        [(⟨{"a"}, {"x"}, {"t"}, {"p"}⟩ : SourceSet), ⟨{"b"}, {"y"}, {"t"}, {"p"}⟩]
      = [⟨{"a"}, {"x"}, {"t"}, {"p"}⟩, ⟨{"b"}, {"y"}, {"t"}, {"p"}⟩] :=
  ⟨by decide, createPairwiseDisjointSets_fixed_point_on_disjoint _ (by decide)⟩

theorem checkRun_state (licenseOf : String → String) (printLicenses : Bool)
    (sources : List String) (init : List String × Bool) :
    sources.foldl (fun st source =>
      let r := CheckLicenseForSourceRun licenseOf printLicenses source
      (st.1 ++ r.1, if r.2 then st.2 else false)) init
    = (init.1 ++ sources.flatMap
        (fun f => (CheckLicenseForSourceRun licenseOf printLicenses f).1),
       init.2 && sources.all
        (fun f => (CheckLicenseForSourceRun licenseOf printLicenses f).2)) := by
  induction sources generalizing init with
  | nil => simp
  | cons x xs ih =>
    rw [List.foldl_cons, ih]
    cases hr : (CheckLicenseForSourceRun licenseOf printLicenses x).2 <;>
      simp [hr, List.append_assoc, Bool.and_assoc]

theorem checkRun_log (licenseOf : String → String) (printLicenses : Bool)
    (sources : List String) :
    (CheckLicensesForStaticLinkingRun licenseOf printLicenses sources).1
      = sources.flatMap
          (fun f => (CheckLicenseForSourceRun licenseOf printLicenses f).1) := by
  rw [CheckLicensesForStaticLinkingRun, checkRun_state]
  simp

theorem checkRun_flag (licenseOf : String → String) (printLicenses : Bool)
    (sources : List String) :
    (CheckLicensesForStaticLinkingRun licenseOf printLicenses sources).2
      = sources.all
          (fun f => (CheckLicenseForSourceRun licenseOf printLicenses f).2) := by
  rw [CheckLicensesForStaticLinkingRun, checkRun_state]
  simp

/-- C6: `main` produces an output artifact exactly when every file of the
checked closure passes its license check; in particular one failing file
means no gyp or gn text is produced, however many others passed. -/
theorem license_gate_atomicity (year : ℕ) (licenseOf : String → String)
    (printLicenses outputGn : Bool) (sets : List SourceSet)
    (sourcesToCheck : List String) :
    (mainOutput year licenseOf printLicenses outputGn sets sourcesToCheck).isSome
      = sourcesToCheck.all
          (fun f => (CheckLicenseForSourceRun licenseOf printLicenses f).2) := by
  rw [mainOutput]
  cases hall : sourcesToCheck.all
      (fun f => (CheckLicenseForSourceRun licenseOf printLicenses f).2) <;>
    simp [checkRun_flag, hall]

/-- C9: a failing check never stops the scan — the printed log is the
concatenation of every file's own report lines in input order (so every
rejected file is reported with its detected license), and the returned flag
is the conjunction over all checked files. -/
theorem license_check_examines_all_files (licenseOf : String → String)
    (printLicenses : Bool) (sources : List String) :
    (CheckLicensesForStaticLinkingRun licenseOf printLicenses sources).1
        = sources.flatMap
            (fun f => (CheckLicenseForSourceRun licenseOf printLicenses f).1)
      ∧ (CheckLicensesForStaticLinkingRun licenseOf printLicenses sources).2
        = sources.all
            (fun f => (CheckLicenseForSourceRun licenseOf printLicenses f).2)
      ∧ ∀ f ∈ sources,
          (CheckLicenseForSourceRun licenseOf printLicenses f).2 = false →
          ("Unexpected license. " ++ f ++ ":.." ++ licenseOf f ++ "..")
            ∈ (CheckLicensesForStaticLinkingRun licenseOf printLicenses sources).1 := by
  refine ⟨checkRun_log licenseOf printLicenses sources,
    checkRun_flag licenseOf printLicenses sources, ?_⟩
  intro f hf hfail
  rw [checkRun_log]
  rw [List.mem_flatMap]
  refine ⟨f, hf, ?_⟩
  rw [CheckLicenseForSourceRun] at hfail ⊢
  split_ifs at hfail ⊢ with hcond
  exact List.mem_singleton_self _

/-- C7: the platform clause of the gyp condition is the trivial "1" exactly
when the platform set is the full supported domain or the bare baseline
subset, and otherwise a disjunction of one OS check per member platform; the
gn renderer drops the platform clause in the same two collapse cases and
otherwise emits one is_-flag per member platform. -/
theorem platform_condition_collapse (s : SourceSet) :
    gypConditions s
      = "(" ++ joinOr (gypArchConditions s.architectures) ++ ") and ("
          ++ joinOr (gypBrandingConditions s.targets) ++ ") and ("
          ++ (if s.platforms = SUPPORTED_PLATFORMS.toFinset ∨
                s.platforms = {"linux"}
              then "1"
              else joinOr ((sortedStrings s.platforms).map
                (fun platform => "OS == \"" ++ platform ++ "\""))) ++ ")"
    ∧ gnPlatformConditions s.platforms
      = (if s.platforms = SUPPORTED_PLATFORMS.toFinset ∨ s.platforms = {"linux"}
         then []
         else (sortedStrings s.platforms).map
           (fun platform => "is_" ++ platform)) := by
  constructor
  · rw [gypConditions, gypPlatformConditions]
    by_cases hc : s.platforms = SUPPORTED_PLATFORMS.toFinset ∨
        s.platforms = {"linux"}
    · rw [if_pos hc, if_pos hc]
      rfl
    · rw [if_neg hc, if_neg hc]
  · rw [gnPlatformConditions]
    by_cases hc : s.platforms = SUPPORTED_PLATFORMS.toFinset ∨
        s.platforms = {"linux"}
    · have hnc : ¬ (s.platforms ≠ SUPPORTED_PLATFORMS.toFinset ∧
          s.platforms ≠ {"linux"}) := by tauto
      rw [if_neg hnc, if_pos hc]
    · have hnc : s.platforms ≠ SUPPORTED_PLATFORMS.toFinset ∧
          s.platforms ≠ {"linux"} := by tauto
      rw [if_pos hnc, if_neg hc]

theorem gypRun_post (s : SourceSet) :
    (((GenerateGypStanzaRun s).2 : List String) : Multiset String)
      = s.sources.val.map normSep := by
  show ((sortedNormSources s : List String) : Multiset String) = _
  rw [sortedNormSources]
  exact Multiset.sort_eq _ _

/-- C8 (amended): `Intersect`, `Difference` and `GenerateGnStanza` return
fresh results and leave their operands exactly as they were;
`GenerateGypStanza` however reassigns the operand's `sources` to the sorted
separator-normalized listing of its elements (line 412), so only the
normalized collection — not the original one — survives the call. -/
theorem operations_preserve_operands_except_gypStanza (a b : SourceSet) :
    (IntersectRun a b).2 = (a, b)
    ∧ (DifferenceRun a b).2 = (a, b)
    ∧ (GenerateGnStanzaRun a).2 = a
    ∧ (((GenerateGypStanzaRun a).2 : List String) : Multiset String)
        = a.sources.val.map normSep :=
  ⟨rfl, rfl, rfl, gypRun_post a⟩

/-- C8, claim as frozen, refuted: after rendering a gyp stanza for a set
whose single file name contains a backslash, the operand's file collection
has observably changed — the backslash became a slash. -/
theorem generateGypStanza_mutates_sources :
    (((GenerateGypStanzaRun ⟨{"a\\b.c"}, {"x"}, {"t"}, {"p"}⟩).2 :
        List String) : Multiset String)
      ≠ (⟨{"a\\b.c"}, {"x"}, {"t"}, {"p"}⟩ : SourceSet).sources.val := by
  rw [gypRun_post]
  decide
